import Mathlib

/-!
Verification of `gpypi2/portage_utils.py`.

The Python module is a collection of filesystem and environment probes around
the Portage package manager.  We embed it shallowly: the snapshot of Portage
configuration variables (`ENV`) becomes an explicit `Env` structure, filesystem
state becomes explicit function-valued fields, the external `ebuild` subprocess
becomes an explicit `(status, output)` input, and logging becomes a list of
structured log events.  Each Python function is translated into a Lean
function over these explicit inputs.
-/

namespace GPyPi

/-- Structured log events, one per `log.error` / `log.warn` call site in
`portage_utils.py`.  Constructors carry the data interpolated into the
Python message. -/
inductive LogMsg where
  | rawOutput (output : String)
  | misnamedEbuild (path : String)
  | tryForcingHint
  | cantDetermineS
  | unpackedMultiple (dirs : List String)
  | noRepoName (path : String)
  | noAcceptKeywords
  | mkdirError (path : String)
  deriving DecidableEq, Repr

/-- The Portage configuration snapshot `ENV = portage_config(...).environ()`.
`ACCEPT_KEYWORDS` is optional because `get_keyword` catches `KeyError` on it. -/
structure Env where
  portdir : String
  portdirOverlay : String
  portageTmpdir : String
  acceptKeywords : Option String

/-- Does the character list start with the pattern `pat`?  (Executable
prefix test over `String.data`, used to embed the Python string methods.) -/
def charsPrefix : List Char → List Char → Bool
  | _, [] => true
  | [], _ :: _ => false
  | c :: cs, p :: ps => c == p && charsPrefix cs ps

/-- Does the character list contain `pat` as a contiguous sublist? -/
def charsContain (pat : List Char) : List Char → Bool
  | [] => pat.isEmpty
  | c :: cs => charsPrefix (c :: cs) pat || charsContain pat cs

/-- Python `s.startswith(pre)`. -/
def pyStartsWith (s pre : String) : Bool := charsPrefix s.data pre.data

/-- Python `s.endswith(suf)`. -/
def pyEndsWith (s suf : String) : Bool := charsPrefix s.data.reverse suf.data.reverse

/-- Python substring containment `pat in s`. -/
def strContainsSub (s pat : String) : Bool := charsContain pat.data s.data

/-- Python `s.split(sep)` for a one-character separator, over `List Char`. -/
def splitOnChar (c : Char) : List Char → List (List Char)
  | [] => [[]]
  | x :: xs =>
    if x == c then [] :: splitOnChar c xs
    else match splitOnChar c xs with
      | h :: t => (x :: h) :: t
      | [] => [[x]]

/-- Python `s.split(c)` for a one-character separator `c`. -/
def pySplitChar (c : Char) (s : String) : List String :=
  (splitOnChar c s.data).map String.mk

/-- Helper for Python `s.split()`: the maximal non-whitespace runs, with
`cur` the (reversed) run being accumulated. -/
def wsTokensAux (cur : List Char) : List Char → List (List Char)
  | [] => if cur.isEmpty then [] else [cur.reverse]
  | c :: cs =>
    if c.isWhitespace then
      if cur.isEmpty then wsTokensAux [] cs
      else cur.reverse :: wsTokensAux [] cs
    else wsTokensAux (c :: cur) cs

/-- Python `s.split()` (no argument): split at whitespace runs, dropping
empty tokens. -/
def pySplitWs (s : String) : List String :=
  (wsTokensAux [] s.data).map String.mk

/-- Python `s.strip()` (whitespace on both ends). -/
def pyStrip (s : String) : String :=
  String.mk (((s.data.dropWhile Char.isWhitespace).reverse.dropWhile
    Char.isWhitespace).reverse)

/-- Python `sep.join(parts)`. -/
def joinWith (sep : String) : List String → String
  | [] => ""
  | [x] => x
  | x :: xs => x ++ sep ++ joinWith sep xs

/-- Python `os.path.join(a, b)` (POSIX, two components). -/
def pjoin (a b : String) : String :=
  if pyStartsWith b "/" then b
  else if a = "" ∨ pyEndsWith a "/" then a ++ b
  else a ++ "/" ++ b

/-! ## `unpack_ebuild` -/

/-- The marker substring `unpack_ebuild` greps for in the subprocess output. -/
def misnamedMarker : String := "does not follow correct package syntax"

/-- How `unpack_ebuild` exits: falling through after the misnamed-ebuild
branch (which logs and unlinks), falling through with exit status 0, or
raising `OSError`. -/
inductive UnpackOutcome where
  | success
  | misnamedArtifact
  | unpackFailure
  deriving DecidableEq, Repr

/-- Python `os.unlink(path)` over a file-existence predicate. -/
def unlink (path : String) (fs : String → Bool) : String → Bool :=
  fun q => if q = path then false else fs q

/-- Outcome, log events and resulting file set of one `unpack_ebuild` call. -/
structure UnpackEffects where
  outcome : UnpackOutcome
  logs : List LogMsg
  fs : String → Bool

/-- `unpack_ebuild(ebuild_path)`: the subprocess result
`(status, output) = commands.getstatusoutput(...)` is an explicit input,
and the file set `fs` records which paths exist. -/
def unpack_ebuild (ebuild_path : String) (status : Int) (output : String)
    (fs : String → Bool) : UnpackEffects :=
  if status ≠ 0 then
    if strContainsSub output misnamedMarker then
      { outcome := .misnamedArtifact
        logs := [.rawOutput output, .misnamedEbuild ebuild_path, .tryForcingHint]
        fs := unlink ebuild_path fs }
    else
      { outcome := .unpackFailure, logs := [.rawOutput output], fs := fs }
  else
    { outcome := .success, logs := [], fs := fs }

/-! ## `get_workdir` and `find_s_dir` -/

/-- `get_portage_tmpdir()`: `ENV["PORTAGE_TMPDIR"]`. -/
def get_portage_tmpdir (env : Env) : String := env.portageTmpdir

/-- `get_workdir(p, cat)`: the string
`'%s/portage/%s/%s/work' % (get_portage_tmpdir(), cat, p)`. -/
def get_workdir (env : Env) (p cat : String) : String :=
  get_portage_tmpdir env ++ "/portage/" ++ cat ++ "/" ++ p ++ "/work"

/-- Directory-listing state for `find_s_dir`: `listdir` returns the entries of
an existing directory and `none` where `os.listdir` would raise `OSError`;
`isdir` is `os.path.isdir`. -/
structure FS where
  listdir : String → Option (List String)
  isdir : String → Bool

/-- Return value and log events of one `find_s_dir` call.  `result` is the
Python return value: `some name` for a detected directory, `some ""` when
unpacked in the work dir itself, `none` (Python `None`) when ambiguous. -/
structure SDirResult where
  result : Option String
  logs : List LogMsg
  deriving DecidableEq, Repr

/-- `find_s_dir(p, cat)`: list the work directory, keep only entries that are
directories, and decide by how many remain.  A failing `os.listdir` raise
is `Except.error`. -/
def find_s_dir (env : Env) (fs : FS) (p cat : String) : Except Unit SDirResult :=
  let workdir := get_workdir env p cat
  match fs.listdir workdir with
  | none => .error ()
  | some files =>
    let dirs := files.filter (fun unpacked => fs.isdir (pjoin workdir unpacked))
    match dirs with
    | [d] => .ok ⟨some d, []⟩
    | [] => .ok ⟨some "", []⟩
    | _ => .ok ⟨none, [.cantDetermineS, .unpackedMultiple dirs]⟩

/-! ## `get_repo_names` -/

/-- Filesystem state for `get_repo_names`: `realpath` is
`os.path.realpath`; `readline` returns the first line of a readable file
(as Python `file.readline` does, newline included, `""` for an empty file)
and `none` where `open` raises `IOError`/`OSError`. -/
structure RepoFS where
  realpath : String → String
  readline : String → Option String

/-- The `porttrees` list: `[ENV['PORTDIR']]` followed by the realpaths of the
whitespace-split `ENV["PORTDIR_OVERLAY"]`. -/
def porttrees (env : Env) (fs : RepoFS) : List String :=
  env.portdir :: (pySplitWs env.portdirOverlay).map fs.realpath

/-- Python `k in d` for the dict modelled as an association list. -/
def dictContains (m : List (String × String)) (k : String) : Bool :=
  m.any (fun kv => kv.1 = k)

/-- Python `d[k] = v`: replace the value in place if the key is present,
otherwise append the new binding. -/
def dictInsert (m : List (String × String)) (k v : String) : List (String × String) :=
  if dictContains m k then m.map (fun kv => if kv.1 = k then (k, v) else kv)
  else m ++ [(k, v)]

/-- Python `d.get(k)` for the association-list dict. -/
def dictLookup (m : List (String × String)) (k : String) : Option String :=
  (m.find? (fun kv => kv.1 = k)).map Prod.snd

/-- The loop body of `get_repo_names`: for each tree root, read and strip the
first line of `<root>/profiles/repo_name` into the dict, or warn on an
`OSError`/`IOError`. -/
def get_repo_names_aux (fs : RepoFS) :
    List String → List (String × String) → List LogMsg →
    List (String × String) × List LogMsg
  | [], treemap, logs => (treemap, logs)
  | path :: rest, treemap, logs =>
    match fs.readline (pjoin path "profiles/repo_name") with
    | some line => get_repo_names_aux fs rest (dictInsert treemap (pyStrip line) path) logs
    | none => get_repo_names_aux fs rest treemap (logs ++ [.noRepoName path])

/-- `get_repo_names()`: dict from repo names to tree paths, plus warnings. -/
def get_repo_names (env : Env) (fs : RepoFS) : List (String × String) × List LogMsg :=
  get_repo_names_aux fs (porttrees env fs) [] []

/-- The `(name, path)` pairs that the `get_repo_names` loop successfully
reads, in iteration order (roots with unreadable markers skipped). -/
def repoYields (env : Env) (fs : RepoFS) : List (String × String) :=
  (porttrees env fs).filterMap (fun path =>
    (fs.readline (pjoin path "profiles/repo_name")).map (fun l => (pyStrip l, path)))

/-- A configuration with a single tree root (no overlays). -/
def envEmptyMarker : Env := ⟨"/usr/portage", "", "/var/tmp", none⟩

/-- A filesystem where the single root's `profiles/repo_name` is readable but
empty: `readline` returns `""` as Python does at end of an empty file. -/
def fsEmptyMarker : RepoFS :=
  ⟨fun p => p,
   fun q => if q = "/usr/portage/profiles/repo_name" then some "" else none⟩

/-! ## `get_installed_ver` -/

/-- `get_installed_ver(cpn)`: the gentoolkit lookup
`find_installed_packages(cpn, masked=True)` is an explicit input returning
either the version list of the matches or an error (any raised exception).
The bare `except:` maps every failure — including the `IndexError` of `[0]`
on an empty match list — to `None`. -/
def get_installed_ver (find_installed_packages : String → Except Unit (List String))
    (cpn : String) : Option String :=
  match find_installed_packages cpn with
  | .error _ => none
  | .ok [] => none
  | .ok (v :: _) => some v

/-! ## `get_keyword` -/

/-- `get_keyword()`: first token of `ENV["ACCEPT_KEYWORDS"].split(' ')`, with
`~x86` (and a logged error) on `KeyError`, then `~`-prefixed if needed. -/
def get_keyword (env : Env) : String × List LogMsg :=
  let archLogs : String × List LogMsg :=
    match env.acceptKeywords with
    | some s => ((pySplitChar ' ' s).headD "", [])
    | none => ("~x86", [.noAcceptKeywords])
  let arch := archLogs.1
  (if pyStartsWith arch "~" then arch else "~" ++ arch, archLogs.2)

/-! ## `make_overlay_dir` -/

/-- Directory/file existence state for `make_overlay_dir`. -/
structure DirFS where
  isdir : String → Bool
  isfile : String → Bool

/-- The chain of paths `os.makedirs(p)` creates, leaf included: the non-empty
slash-prefixes of `p` (the final element being `p` itself once more, kept
explicitly so that membership of the leaf needs no string reasoning). -/
def pathAncestors (p : String) : List String :=
  (((List.range ((pySplitChar '/' p).length)).map
    (fun k => joinWith "/" ((pySplitChar '/' p).take (k + 1)))).filter
      (fun q => q ≠ "")) ++ [p]

/-- `os.makedirs(p)` raises `OSError` iff some path on the chain up to and
including `p` exists as a plain file. -/
def makedirsFails (fs : DirFS) (p : String) : Bool :=
  (pathAncestors p).any fs.isfile

/-- Successful `os.makedirs(p)`: every path on the chain becomes a directory. -/
def makedirs (fs : DirFS) (p : String) : DirFS :=
  { fs with isdir := fun q => fs.isdir q || (pathAncestors p).contains q }

/-- How `make_overlay_dir` ends: returning the ebuild directory path (with the
possibly updated filesystem), or `sys.exit(2)` after logging the error. -/
inductive MkOverlayResult where
  | ok (path : String) (fs : DirFS) (logs : List LogMsg)
  | exit (code : Nat) (logs : List LogMsg)

/-- `make_overlay_dir(category, pn, overlay)`: join the three components,
create the directory tree if the target is not already a directory, and
`sys.exit(2)` when creation fails. -/
def make_overlay_dir (category pn overlay : String) (fs : DirFS) : MkOverlayResult :=
  let ebuild_dir := pjoin (pjoin overlay category) pn
  if fs.isdir ebuild_dir then .ok ebuild_dir fs []
  else if makedirsFails fs ebuild_dir then .exit 2 [.mkdirError ebuild_dir]
  else .ok ebuild_dir (makedirs fs ebuild_dir) []

/-! ## `find_egg_info_dir` -/

/-- Python (POSIX) `os.path.normpath`. -/
def normpath (p : String) : String :=
  if p = "" then "." else
  let initSlashes : Nat :=
    if pyStartsWith p "/" then
      (if pyStartsWith p "//" ∧ ¬ pyStartsWith p "///" then 2 else 1)
    else 0
  let comps := pySplitChar '/' p
  let newComps := comps.foldl (fun acc comp =>
    if comp = "" ∨ comp = "." then acc
    else if comp ≠ ".." ∨ (initSlashes = 0 ∧ acc = []) ∨ (acc.getLast? = some "..") then
      acc ++ [comp]
    else acc.dropLast) []
  let res := (if initSlashes = 2 then "//" else if initSlashes = 1 then "/" else "") ++
    joinWith "/" newComps
  if res = "" then "." else res

/-- Python `os.path.abspath` with an explicit current working directory. -/
def abspath (cwd p : String) : String := normpath (pjoin cwd p)

/-- A directory tree: named subdirectories (in listing order) and file names. -/
inductive FTree where
  | node (dirs : List (String × FTree)) (files : List String)

/-- Subdirectories of the root of a tree. -/
def FTree.dirs : FTree → List (String × FTree)
  | .node ds _ => ds

/-- Files at the root of a tree. -/
def FTree.files : FTree → List String
  | .node _ fls => fls

/-- Python `os.walk(path)` (top-down): the `(dirpath, dirnames, filenames)`
triples in depth-first pre-order. -/
def os_walk (path : String) : FTree → List (String × List String × List String)
  | .node ds fls =>
    (path, ds.map Prod.fst, fls) ::
      ds.attach.flatMap (fun d => os_walk (pjoin path d.1.1) d.1.2)
decreasing_by
  obtain ⟨⟨n, sub⟩, hmem⟩ := d
  have h1 := List.sizeOf_lt_of_mem hmem
  simp only [Prod.mk.sizeOf_spec] at h1
  simp
  omega

/-- The suffix marking a build-metadata directory. -/
def eggInfoSuffix : String := ".egg-info"

/-- `find_egg_info_dir(root)`: walk `os.path.abspath(root)` and return
`os.path.normpath(os.path.join(path, this_dir, ".."))` for the first
directory name ending in `.egg-info`, or `None`. -/
def find_egg_info_dir (cwd root : String) (t : FTree) : Option String :=
  (os_walk (abspath cwd root) t).findSome? (fun e =>
    (e.2.1.find? (fun d => pyEndsWith d eggInfoSuffix)).map
      (fun d => normpath (pjoin (pjoin e.1 d) "..")))

/-- All `(dirpath, dirname)` pairs of a walk whose directory name ends in
`.egg-info`, in walk order. -/
def eggMatches (l : List (String × List String × List String)) : List (String × String) :=
  l.flatMap (fun e =>
    (e.2.1.filter (fun d => pyEndsWith d eggInfoSuffix)).map (fun d => (e.1, d)))

/-! ## Theorems -/

/-- C1: when the unpack subprocess exits nonzero and its output contains the
misnamed-package marker, `unpack_ebuild` logs the raw output, the misnamed
path and the force-name-or-version hint, deletes the ebuild file at the recipe
path (and only that file), and ends in the distinct `misnamedArtifact`
outcome rather than the `OSError`-raising `unpackFailure` outcome. -/
theorem unpack_ebuild_misnamed (path output : String) (status : Int)
    (fs : String → Bool) (hs : status ≠ 0)
    (ho : strContainsSub output misnamedMarker = true) :
    (unpack_ebuild path status output fs).outcome = .misnamedArtifact ∧
    (unpack_ebuild path status output fs).outcome ≠ .unpackFailure ∧
    (unpack_ebuild path status output fs).logs =
      [.rawOutput output, .misnamedEbuild path, .tryForcingHint] ∧
    (unpack_ebuild path status output fs).fs path = false ∧
    (∀ q, q ≠ path → (unpack_ebuild path status output fs).fs q = fs q) := by
  refine ⟨?_, ?_, ?_, ?_, ?_⟩
  · simp [unpack_ebuild, hs, ho]
  · simp [unpack_ebuild, hs, ho]
  · simp [unpack_ebuild, hs, ho]
  · simp [unpack_ebuild, hs, ho, unlink]
  · intro q hq
    simp [unpack_ebuild, hs, ho, unlink, hq]

theorem unpack_ebuild_misnamed_witness :
    (1 : Int) ≠ 0 ∧
    strContainsSub "foo-1.0.ebuild does not follow correct package syntax."
      misnamedMarker = true ∧
    ((unpack_ebuild "/ovl/dev-python/foo/foo-1.0.ebuild" 1
        "foo-1.0.ebuild does not follow correct package syntax."
        (fun q => q == "/ovl/dev-python/foo/foo-1.0.ebuild")).outcome =
          .misnamedArtifact ∧
     (unpack_ebuild "/ovl/dev-python/foo/foo-1.0.ebuild" 1
        "foo-1.0.ebuild does not follow correct package syntax."
        (fun q => q == "/ovl/dev-python/foo/foo-1.0.ebuild")).outcome ≠
          .unpackFailure ∧
     (unpack_ebuild "/ovl/dev-python/foo/foo-1.0.ebuild" 1
        "foo-1.0.ebuild does not follow correct package syntax."
        (fun q => q == "/ovl/dev-python/foo/foo-1.0.ebuild")).logs =
       [.rawOutput "foo-1.0.ebuild does not follow correct package syntax.",
        .misnamedEbuild "/ovl/dev-python/foo/foo-1.0.ebuild", .tryForcingHint] ∧
     (unpack_ebuild "/ovl/dev-python/foo/foo-1.0.ebuild" 1
        "foo-1.0.ebuild does not follow correct package syntax."
        (fun q => q == "/ovl/dev-python/foo/foo-1.0.ebuild")).fs
          "/ovl/dev-python/foo/foo-1.0.ebuild" = false ∧
     (∀ q, q ≠ "/ovl/dev-python/foo/foo-1.0.ebuild" →
       (unpack_ebuild "/ovl/dev-python/foo/foo-1.0.ebuild" 1
          "foo-1.0.ebuild does not follow correct package syntax."
          (fun q => q == "/ovl/dev-python/foo/foo-1.0.ebuild")).fs q =
        (fun q => q == "/ovl/dev-python/foo/foo-1.0.ebuild") q)) :=
  ⟨by decide, by decide,
   unpack_ebuild_misnamed "/ovl/dev-python/foo/foo-1.0.ebuild"
     "foo-1.0.ebuild does not follow correct package syntax." 1
     (fun q => q == "/ovl/dev-python/foo/foo-1.0.ebuild")
     (by decide) (by decide)⟩

/-- C2: when the unpack subprocess exits nonzero and its output lacks the
misnamed-package marker, `unpack_ebuild` logs the raw output, ends in the
`unpackFailure` outcome (the `raise OSError`), and leaves the file set — in
particular the recipe file — untouched. -/
theorem unpack_ebuild_generic_failure (path output : String) (status : Int)
    (fs : String → Bool) (hs : status ≠ 0)
    (ho : strContainsSub output misnamedMarker = false) :
    (unpack_ebuild path status output fs).outcome = .unpackFailure ∧
    (unpack_ebuild path status output fs).logs = [.rawOutput output] ∧
    (unpack_ebuild path status output fs).fs = fs := by
  refine ⟨?_, ?_, ?_⟩ <;> simp [unpack_ebuild, hs, ho]

theorem unpack_ebuild_generic_failure_witness :
    (1 : Int) ≠ 0 ∧
    strContainsSub "ERROR: fetch failed" misnamedMarker = false ∧
    ((unpack_ebuild "/ovl/dev-python/foo/foo-1.0.ebuild" 1 "ERROR: fetch failed"
        (fun q => q == "/ovl/dev-python/foo/foo-1.0.ebuild")).outcome =
          .unpackFailure ∧
     (unpack_ebuild "/ovl/dev-python/foo/foo-1.0.ebuild" 1 "ERROR: fetch failed"
        (fun q => q == "/ovl/dev-python/foo/foo-1.0.ebuild")).logs =
          [.rawOutput "ERROR: fetch failed"] ∧
     (unpack_ebuild "/ovl/dev-python/foo/foo-1.0.ebuild" 1 "ERROR: fetch failed"
        (fun q => q == "/ovl/dev-python/foo/foo-1.0.ebuild")).fs =
       (fun q => q == "/ovl/dev-python/foo/foo-1.0.ebuild")) :=
  ⟨by decide, by decide,
   unpack_ebuild_generic_failure "/ovl/dev-python/foo/foo-1.0.ebuild"
     "ERROR: fetch failed" 1 (fun q => q == "/ovl/dev-python/foo/foo-1.0.ebuild")
     (by decide) (by decide)⟩

/-- C3: when the work directory `<tmpdir>/portage/<cat>/<p>/work` is listable,
`find_s_dir` keeps only the entries that are directories and returns the
single directory name when there is exactly one, the empty string when there
is none, and — with two or more — logs the full candidate list and returns
the ambiguous result (Python `None`) instead of choosing. -/
theorem find_s_dir_spec (env : Env) (fs : FS) (p cat : String)
    (files : List String)
    (h : fs.listdir (get_workdir env p cat) = some files) :
    (files.filter (fun u => fs.isdir (pjoin (get_workdir env p cat) u)) = [] →
      find_s_dir env fs p cat = .ok ⟨some "", []⟩) ∧
    (∀ d, files.filter (fun u => fs.isdir (pjoin (get_workdir env p cat) u)) = [d] →
      find_s_dir env fs p cat = .ok ⟨some d, []⟩) ∧
    (∀ dirs, files.filter (fun u => fs.isdir (pjoin (get_workdir env p cat) u)) = dirs →
      2 ≤ dirs.length →
      find_s_dir env fs p cat =
        .ok ⟨none, [.cantDetermineS, .unpackedMultiple dirs]⟩) := by
  refine ⟨fun h0 => ?_, fun d hd => ?_, fun dirs hds h2 => ?_⟩
  · simp only [find_s_dir, h, h0]
  · simp only [find_s_dir, h, hd]
  · simp only [find_s_dir, h, hds]
    match dirs, h2 with
    | _ :: _ :: _, _ => rfl

theorem find_s_dir_spec_witness :
    ((⟨fun q => if q = "/var/tmp/portage/dev-python/foo-1.0/work" then
          some ["foo-1.0", "bar-2.0", "notes.txt"] else none,
       fun q => q == "/var/tmp/portage/dev-python/foo-1.0/work/foo-1.0" ||
         q == "/var/tmp/portage/dev-python/foo-1.0/work/bar-2.0"⟩ : FS).listdir
      (get_workdir ⟨"/usr/portage", "", "/var/tmp", none⟩ "foo-1.0" "dev-python") =
      some ["foo-1.0", "bar-2.0", "notes.txt"]) ∧
    find_s_dir ⟨"/usr/portage", "", "/var/tmp", none⟩
      ⟨fun q => if q = "/var/tmp/portage/dev-python/foo-1.0/work" then
          some ["foo-1.0", "bar-2.0", "notes.txt"] else none,
       fun q => q == "/var/tmp/portage/dev-python/foo-1.0/work/foo-1.0" ||
         q == "/var/tmp/portage/dev-python/foo-1.0/work/bar-2.0"⟩
      "foo-1.0" "dev-python" =
      .ok ⟨none, [.cantDetermineS, .unpackedMultiple ["foo-1.0", "bar-2.0"]]⟩ :=
  ⟨by decide,
   ((find_s_dir_spec ⟨"/usr/portage", "", "/var/tmp", none⟩
      ⟨fun q => if q = "/var/tmp/portage/dev-python/foo-1.0/work" then
          some ["foo-1.0", "bar-2.0", "notes.txt"] else none,
       fun q => q == "/var/tmp/portage/dev-python/foo-1.0/work/foo-1.0" ||
         q == "/var/tmp/portage/dev-python/foo-1.0/work/bar-2.0"⟩
      "foo-1.0" "dev-python" ["foo-1.0", "bar-2.0", "notes.txt"]
      (by decide)).2.2 ["foo-1.0", "bar-2.0"] (by decide) (by decide))⟩

/-- C10: when the computed work directory does not exist (its listing fails),
`find_s_dir` propagates the `os.listdir` raise as an error and returns none
of the documented results; the existence of the work directory is an
unstated precondition of the documented contract. -/
theorem find_s_dir_missing_workdir (env : Env) (fs : FS) (p cat : String)
    (h : fs.listdir (get_workdir env p cat) = none) :
    find_s_dir env fs p cat = .error () ∧
    ∀ r, find_s_dir env fs p cat ≠ .ok r := by
  have he : find_s_dir env fs p cat = .error () := by
    simp only [find_s_dir, h]
  exact ⟨he, fun r hr => by rw [he] at hr; exact Except.noConfusion hr⟩

theorem find_s_dir_missing_workdir_witness :
    ((⟨fun _ => none, fun _ => false⟩ : FS).listdir
       (get_workdir ⟨"/usr/portage", "", "/var/tmp", none⟩ "foo-1.0" "dev-python") =
       none) ∧
    (find_s_dir ⟨"/usr/portage", "", "/var/tmp", none⟩
       ⟨fun _ => none, fun _ => false⟩ "foo-1.0" "dev-python" = .error () ∧
     ∀ r, find_s_dir ⟨"/usr/portage", "", "/var/tmp", none⟩
       ⟨fun _ => none, fun _ => false⟩ "foo-1.0" "dev-python" ≠ .ok r) :=
  ⟨rfl, find_s_dir_missing_workdir ⟨"/usr/portage", "", "/var/tmp", none⟩
    ⟨fun _ => none, fun _ => false⟩ "foo-1.0" "dev-python" rfl⟩

/-- C7: `get_keyword` returns the first space-separated token of
`ACCEPT_KEYWORDS`, prefixed with `~` unless it already starts with `~`
(so `"x86 amd64"` yields `"~x86"` and `"~amd64"` stays `"~amd64"`); when the
variable is absent it logs an error and returns `"~x86"`. -/
theorem get_keyword_spec (env : Env) :
    (∀ s, env.acceptKeywords = some s →
      get_keyword env =
        (if pyStartsWith ((pySplitChar ' ' s).headD "") "~" then
           (pySplitChar ' ' s).headD ""
         else "~" ++ (pySplitChar ' ' s).headD "", [])) ∧
    (env.acceptKeywords = none →
      get_keyword env = ("~x86", [.noAcceptKeywords])) ∧
    (env.acceptKeywords = some "x86 amd64" → get_keyword env = ("~x86", [])) ∧
    (env.acceptKeywords = some "~amd64" → get_keyword env = ("~amd64", [])) := by
  refine ⟨fun s h => ?_, fun h => ?_, fun h => ?_, fun h => ?_⟩
  · simp only [get_keyword, h]
  · simp only [get_keyword, h]
    rfl
  · simp only [get_keyword, h]
    rfl
  · simp only [get_keyword, h]
    rfl

theorem get_keyword_spec_witness :
    ((⟨"/usr/portage", "", "/var/tmp", some "x86 amd64"⟩ : Env).acceptKeywords =
       some "x86 amd64") ∧
    get_keyword ⟨"/usr/portage", "", "/var/tmp", some "x86 amd64"⟩ = ("~x86", []) :=
  ⟨rfl, (get_keyword_spec ⟨"/usr/portage", "", "/var/tmp", some "x86 amd64"⟩).2.2.1 rfl⟩

/-- C8: `get_installed_ver` returns the version of the first installed
package matched by the lookup, and returns `none` both when no match is
installed and when the lookup fails in any way — the bare `except:` maps
every error to the not-found result instead of propagating it. -/
theorem get_installed_ver_spec
    (find_installed_packages : String → Except Unit (List String)) (cpn : String) :
    (∀ v vs, find_installed_packages cpn = .ok (v :: vs) →
      get_installed_ver find_installed_packages cpn = some v) ∧
    (find_installed_packages cpn = .ok [] →
      get_installed_ver find_installed_packages cpn = none) ∧
    (∀ e, find_installed_packages cpn = .error e →
      get_installed_ver find_installed_packages cpn = none) := by
  refine ⟨fun v vs h => ?_, fun h => ?_, fun e h => ?_⟩ <;>
    simp [get_installed_ver, h]

theorem get_installed_ver_spec_witness :
    ((fun _ => Except.error ()) : String → Except Unit (List String))
        "dev-python/foo-1.0" = .error () ∧
    get_installed_ver (fun _ => Except.error ()) "dev-python/foo-1.0" = none :=
  ⟨rfl, (get_installed_ver_spec (fun _ => Except.error ()) "dev-python/foo-1.0").2.2 () rfl⟩

/-! ### Dictionary helper lemmas -/

theorem dictContains_iff (m : List (String × String)) (k : String) :
    dictContains m k = true ↔ ∃ kv ∈ m, kv.1 = k := by
  simp [dictContains]

theorem map_replace_fst (m : List (String × String)) (k v : String) :
    (m.map (fun kv => if kv.1 = k then (k, v) else kv)).map Prod.fst =
      m.map Prod.fst := by
  induction m with
  | nil => rfl
  | cons kv t ih => by_cases h : kv.1 = k <;> simp [h, ih]

theorem dictInsert_map_fst (m : List (String × String)) (k v : String) :
    (dictInsert m k v).map Prod.fst =
      if dictContains m k = true then m.map Prod.fst else m.map Prod.fst ++ [k] := by
  simp only [dictInsert]
  split
  · exact map_replace_fst m k v
  · simp

theorem dictContains_eq_mem_keys (m : List (String × String)) (k : String) :
    dictContains m k = true ↔ k ∈ m.map Prod.fst := by
  rw [dictContains_iff, List.mem_map]

theorem dictContains_dictInsert (m : List (String × String)) (k v k' : String) :
    dictContains (dictInsert m k v) k' = true ↔
      k' = k ∨ dictContains m k' = true := by
  rw [dictContains_eq_mem_keys, dictInsert_map_fst]
  by_cases h : dictContains m k = true
  · rw [if_pos h, ← dictContains_eq_mem_keys]
    constructor
    · intro h1
      right
      exact h1
    · rintro (rfl | h1)
      · exact h
      · exact h1
  · rw [if_neg h, List.mem_append, List.mem_singleton, ← dictContains_eq_mem_keys]
    tauto

theorem find_in_replace (m : List (String × String)) (k v : String)
    (hc : dictContains m k = true) :
    (m.map (fun kv => if kv.1 = k then (k, v) else kv)).find?
      (fun kv => kv.1 = k) = some (k, v) := by
  induction m with
  | nil => simp [dictContains] at hc
  | cons kv t ih =>
    by_cases h : kv.1 = k
    · simp [List.find?_cons, h]
    · have hc' : dictContains t k = true := by
        rw [dictContains_iff] at hc
        obtain ⟨kv2, hkv2, hk2⟩ := hc
        rcases List.mem_cons.mp hkv2 with rfl | hmem
        · exact absurd hk2 h
        · exact (dictContains_iff t k).mpr ⟨kv2, hmem, hk2⟩
      simp [List.find?_cons, h, ih hc']

theorem dictLookup_dictInsert_self (m : List (String × String)) (k v : String) :
    dictLookup (dictInsert m k v) k = some v := by
  simp only [dictInsert]
  split
  · rename_i hc
    simp [dictLookup, find_in_replace m k v hc]
  · rename_i hc
    have hnone : m.find? (fun kv => decide (kv.1 = k)) = none := by
      rw [List.find?_eq_none]
      intro x hx
      simp only [decide_eq_true_eq]
      intro hxk
      exact hc ((dictContains_iff m k).mpr ⟨x, hx, hxk⟩)
    simp [dictLookup, List.find?_append, hnone, List.find?_cons]

theorem dictLookup_replace_ne (m : List (String × String)) (k v k' : String)
    (h : k' ≠ k) :
    dictLookup (m.map (fun kv => if kv.1 = k then (k, v) else kv)) k' =
      dictLookup m k' := by
  induction m with
  | nil => rfl
  | cons kv t ih =>
    by_cases hk : kv.1 = k
    · have h1 : ¬((k, v).1 = k') := fun hh => h (hh.symm)
      have h2 : ¬(kv.1 = k') := by rw [hk]; exact h1
      simp only [List.map_cons, hk, if_pos rfl]
      simp [dictLookup, List.find?_cons, h1, h2] at ih ⊢
      exact ih
    · simp only [List.map_cons, if_neg hk]
      by_cases h2 : kv.1 = k'
      · simp [dictLookup, List.find?_cons, h2]
      · simp [dictLookup, List.find?_cons, h2] at ih ⊢
        exact ih

theorem dictLookup_dictInsert_ne (m : List (String × String)) (k v k' : String)
    (h : k' ≠ k) :
    dictLookup (dictInsert m k v) k' = dictLookup m k' := by
  simp only [dictInsert]
  split
  · exact dictLookup_replace_ne m k v k' h
  · have h1 : ¬((k, v).1 = k') := fun hh => h (hh.symm)
    simp [dictLookup, List.find?_append, List.find?_cons, h1, Option.or_none]

theorem dictInsert_nodup_keys (m : List (String × String)) (k v : String)
    (h : (m.map Prod.fst).Nodup) :
    ((dictInsert m k v).map Prod.fst).Nodup := by
  rw [dictInsert_map_fst]
  split
  · exact h
  · rename_i hc
    have hk : k ∉ m.map Prod.fst := fun hmem =>
      hc ((dictContains_eq_mem_keys m k).mpr hmem)
    rw [← List.concat_eq_append]
    exact List.Nodup.concat hk h

theorem foldl_dictInsert_contains (l : List (String × String)) :
    ∀ (m : List (String × String)) (k : String),
      dictContains (l.foldl (fun t kv => dictInsert t kv.1 kv.2) m) k = true ↔
        dictContains m k = true ∨ ∃ kv ∈ l, kv.1 = k := by
  induction l with
  | nil =>
    intro m k
    simp
  | cons kv0 rest ih =>
    intro m k
    rw [List.foldl_cons, ih]
    constructor
    · rintro (hm | ⟨kv, hkv, hk⟩)
      · rw [dictContains_dictInsert] at hm
        rcases hm with h1 | h2
        · exact Or.inr ⟨kv0, List.mem_cons_self kv0 rest, h1.symm⟩
        · exact Or.inl h2
      · exact Or.inr ⟨kv, List.mem_cons_of_mem _ hkv, hk⟩
    · rintro (hm | ⟨kv, hkv, hk⟩)
      · left
        rw [dictContains_dictInsert]
        exact Or.inr hm
      · rcases List.mem_cons.mp hkv with rfl | hmem
        · left
          rw [dictContains_dictInsert]
          exact Or.inl hk.symm
        · exact Or.inr ⟨kv, hmem, hk⟩

theorem foldl_dictInsert_lookup (l : List (String × String)) :
    ∀ (m : List (String × String)) (k : String),
      dictLookup (l.foldl (fun t kv => dictInsert t kv.1 kv.2) m) k =
        match (l.filter (fun kv => kv.1 = k)).getLast? with
        | some kv => some kv.2
        | none => dictLookup m k := by
  induction l with
  | nil =>
    intro m k
    rfl
  | cons kv0 rest ih =>
    intro m k
    rw [List.foldl_cons, ih]
    by_cases h0 : kv0.1 = k
    · subst h0
      rw [List.filter_cons, if_pos (by simp)]
      rw [List.getLast?_cons]
      cases hl : (rest.filter (fun kv => decide (kv.1 = kv0.1))).getLast? with
      | some kv => simp [hl]
      | none => simp [hl, dictLookup_dictInsert_self]
    · rw [List.filter_cons, if_neg (by simp [h0])]
      cases hl : (rest.filter (fun kv => decide (kv.1 = k))).getLast? with
      | some kv => simp [hl]
      | none => simp [hl, dictLookup_dictInsert_ne m kv0.1 kv0.2 k (fun hh => h0 hh.symm)]

theorem foldl_dictInsert_nodup (l : List (String × String)) :
    ∀ (m : List (String × String)), (m.map Prod.fst).Nodup →
      ((l.foldl (fun t kv => dictInsert t kv.1 kv.2) m).map Prod.fst).Nodup := by
  induction l with
  | nil =>
    intro m h
    exact h
  | cons kv rest ih =>
    intro m h
    rw [List.foldl_cons]
    exact ih _ (dictInsert_nodup_keys _ _ _ h)

/-! ### `get_repo_names` loop characterization -/

theorem get_repo_names_aux_fst (fs : RepoFS) (roots : List String) :
    ∀ (m : List (String × String)) (logs : List LogMsg),
      (get_repo_names_aux fs roots m logs).1 =
        (roots.filterMap (fun path =>
          (fs.readline (pjoin path "profiles/repo_name")).map
            (fun l => (pyStrip l, path)))).foldl
          (fun t kv => dictInsert t kv.1 kv.2) m := by
  induction roots with
  | nil =>
    intro m logs
    rfl
  | cons path rest ih =>
    intro m logs
    cases hr : fs.readline (pjoin path "profiles/repo_name") with
    | some line => simp [get_repo_names_aux, hr, List.filterMap_cons, ih]
    | none => simp [get_repo_names_aux, hr, List.filterMap_cons, ih]

theorem get_repo_names_aux_snd (fs : RepoFS) (roots : List String) :
    ∀ (m : List (String × String)) (logs : List LogMsg),
      (get_repo_names_aux fs roots m logs).2 =
        logs ++ (roots.filter (fun path =>
          (fs.readline (pjoin path "profiles/repo_name")).isNone)).map
          LogMsg.noRepoName := by
  induction roots with
  | nil =>
    intro m logs
    simp [get_repo_names_aux]
  | cons path rest ih =>
    intro m logs
    cases hr : fs.readline (pjoin path "profiles/repo_name") with
    | some line => simp [get_repo_names_aux, hr, List.filter_cons, ih]
    | none => simp [get_repo_names_aux, hr, List.filter_cons, ih]

/-- C4 (amended): the key set of `get_repo_names` is exactly the set of
stripped first lines of the roots whose `profiles/repo_name` is readable —
a readable but empty marker contributes the empty name — and every root
whose marker is unreadable is warned about (and only those), never failing
the whole operation. -/
theorem get_repo_names_keys (env : Env) (fs : RepoFS) :
    (∀ name, dictContains (get_repo_names env fs).1 name = true ↔
      ∃ path ∈ porttrees env fs, ∃ l,
        fs.readline (pjoin path "profiles/repo_name") = some l ∧
        pyStrip l = name) ∧
    (get_repo_names env fs).2 =
      ((porttrees env fs).filter (fun path =>
        (fs.readline (pjoin path "profiles/repo_name")).isNone)).map
        LogMsg.noRepoName := by
  constructor
  · intro name
    rw [get_repo_names, get_repo_names_aux_fst, foldl_dictInsert_contains]
    constructor
    · rintro (h | ⟨kv, hkv, hk⟩)
      · simp [dictContains] at h
      · rw [List.mem_filterMap] at hkv
        obtain ⟨path, hpath, hmap⟩ := hkv
        cases hr : fs.readline (pjoin path "profiles/repo_name") with
        | none =>
          rw [hr] at hmap
          simp at hmap
        | some l =>
          rw [hr] at hmap
          simp only [Option.map_some'] at hmap
          refine ⟨path, hpath, l, hr, ?_⟩
          rw [← hk, ← Option.some.inj hmap]
    · rintro ⟨path, hpath, l, hr, hname⟩
      exact Or.inr ⟨(pyStrip l, path),
        List.mem_filterMap.mpr ⟨path, hpath, by rw [hr]; rfl⟩, hname⟩
  · rw [get_repo_names, get_repo_names_aux_snd]
    simp

/-- Counterexample to C4 as stated: with a single root whose
`profiles/repo_name` is readable but empty, `get_repo_names` records the
empty repository name as a key, while the claim's key set — names read from
roots with a readable, NON-empty marker file — is empty. -/
theorem get_repo_names_claim4_cex :
    ¬ (∀ name,
        dictContains (get_repo_names envEmptyMarker fsEmptyMarker).1 name = true ↔
        ∃ path ∈ porttrees envEmptyMarker fsEmptyMarker, ∃ l,
          fsEmptyMarker.readline (pjoin path "profiles/repo_name") = some l ∧
          l ≠ "" ∧ pyStrip l = name) := by
  intro hclaim
  have h1 : dictContains (get_repo_names envEmptyMarker fsEmptyMarker).1 "" = true := by
    decide
  obtain ⟨path, hpath, l, hr, hne, _⟩ := (hclaim "").mp h1
  have hroots : porttrees envEmptyMarker fsEmptyMarker = ["/usr/portage"] := rfl
  rw [hroots, List.mem_singleton] at hpath
  rw [hpath] at hr
  have hread : fsEmptyMarker.readline (pjoin "/usr/portage" "profiles/repo_name") =
      some "" := rfl
  rw [hread] at hr
  exact hne (Option.some.inj hr).symm

theorem get_repo_names_keys_witness :
    dictContains (get_repo_names ⟨"/usr/portage", "", "/var/tmp", none⟩
      ⟨fun p => p,
       fun q => if q = "/usr/portage/profiles/repo_name" then some "gentoo\n"
         else none⟩).1 "gentoo" = true :=
  ((get_repo_names_keys ⟨"/usr/portage", "", "/var/tmp", none⟩
      ⟨fun p => p,
       fun q => if q = "/usr/portage/profiles/repo_name" then some "gentoo\n"
         else none⟩).1 "gentoo").mpr
    ⟨"/usr/portage", by decide, "gentoo\n", rfl, rfl⟩

/-- C5: `get_repo_names` is last-write-wins by iteration order — the entry
kept for a name is the path of the last root (primary tree first, then
overlays in listed order) whose marker yields that name — and the resulting
dict has at most one entry per distinct name. -/
theorem get_repo_names_last_wins (env : Env) (fs : RepoFS) :
    (∀ name, dictLookup (get_repo_names env fs).1 name =
      ((repoYields env fs).filter (fun kv => kv.1 = name)).getLast?.map
        Prod.snd) ∧
    ((get_repo_names env fs).1.map Prod.fst).Nodup := by
  constructor
  · intro name
    rw [get_repo_names, get_repo_names_aux_fst, foldl_dictInsert_lookup]
    show (match (List.filter _ (repoYields env fs)).getLast? with
      | some kv => some kv.2
      | none => dictLookup [] name) = _
    cases hl : ((repoYields env fs).filter (fun kv => kv.1 = name)).getLast? with
    | some kv => simp [hl]
    | none => simp [hl, dictLookup]
  · rw [get_repo_names, get_repo_names_aux_fst]
    exact foldl_dictInsert_nodup _ [] (by simp)

theorem get_repo_names_last_wins_witness :
    dictLookup (get_repo_names ⟨"/usr/portage", "/ovl", "/var/tmp", none⟩
      ⟨fun p => p,
       fun q => if q = "/usr/portage/profiles/repo_name" then some "gentoo"
         else if q = "/ovl/profiles/repo_name" then some "gentoo"
         else none⟩).1 "gentoo" = some "/ovl" :=
  ((get_repo_names_last_wins ⟨"/usr/portage", "/ovl", "/var/tmp", none⟩
      ⟨fun p => p,
       fun q => if q = "/usr/portage/profiles/repo_name" then some "gentoo"
         else if q = "/ovl/profiles/repo_name" then some "gentoo"
         else none⟩).1 "gentoo").trans (by decide)

/-- C6: `make_overlay_dir` always works on the path
`<overlay>/<category>/<pn>`: it returns it unchanged when it already is a
directory (so a second call after a successful creation produces no error
and the same path), otherwise creates it together with every missing parent
segment, and when creation fails it logs the error and exits the process
with status 2. -/
theorem make_overlay_dir_spec (category pn overlay : String) (fs : DirFS) :
    (fs.isdir (pjoin (pjoin overlay category) pn) = true →
      make_overlay_dir category pn overlay fs =
        .ok (pjoin (pjoin overlay category) pn) fs []) ∧
    (fs.isdir (pjoin (pjoin overlay category) pn) = false →
      makedirsFails fs (pjoin (pjoin overlay category) pn) = false →
      make_overlay_dir category pn overlay fs =
        .ok (pjoin (pjoin overlay category) pn)
          (makedirs fs (pjoin (pjoin overlay category) pn)) [] ∧
      (∀ q ∈ pathAncestors (pjoin (pjoin overlay category) pn),
        (makedirs fs (pjoin (pjoin overlay category) pn)).isdir q = true) ∧
      make_overlay_dir category pn overlay
          (makedirs fs (pjoin (pjoin overlay category) pn)) =
        .ok (pjoin (pjoin overlay category) pn)
          (makedirs fs (pjoin (pjoin overlay category) pn)) []) ∧
    (fs.isdir (pjoin (pjoin overlay category) pn) = false →
      makedirsFails fs (pjoin (pjoin overlay category) pn) = true →
      make_overlay_dir category pn overlay fs =
        .exit 2 [.mkdirError (pjoin (pjoin overlay category) pn)]) := by
  refine ⟨fun h1 => ?_, fun h1 h2 => ⟨?_, fun q hq => ?_, ?_⟩, fun h1 h2 => ?_⟩
  · simp [make_overlay_dir, h1]
  · simp [make_overlay_dir, h1, h2]
  · simp only [makedirs, List.contains, Bool.or_eq_true]
    exact Or.inr (List.elem_iff.mpr hq)
  · have hmem : pjoin (pjoin overlay category) pn ∈
        pathAncestors (pjoin (pjoin overlay category) pn) :=
      List.mem_append_right _ (by simp)
    have hd : (makedirs fs (pjoin (pjoin overlay category) pn)).isdir
        (pjoin (pjoin overlay category) pn) = true := by
      simp only [makedirs, List.contains, Bool.or_eq_true]
      exact Or.inr (List.elem_iff.mpr hmem)
    simp [make_overlay_dir, hd]
  · simp [make_overlay_dir, h1, h2]

theorem make_overlay_dir_spec_witness :
    ((⟨fun _ => false, fun _ => false⟩ : DirFS).isdir
        (pjoin (pjoin "/overlay" "dev-python") "foo") = false) ∧
    (makedirsFails ⟨fun _ => false, fun _ => false⟩
        (pjoin (pjoin "/overlay" "dev-python") "foo") = false) ∧
    (make_overlay_dir "dev-python" "foo" "/overlay" ⟨fun _ => false, fun _ => false⟩ =
        .ok (pjoin (pjoin "/overlay" "dev-python") "foo")
          (makedirs ⟨fun _ => false, fun _ => false⟩
            (pjoin (pjoin "/overlay" "dev-python") "foo")) [] ∧
      (∀ q ∈ pathAncestors (pjoin (pjoin "/overlay" "dev-python") "foo"),
        (makedirs ⟨fun _ => false, fun _ => false⟩
          (pjoin (pjoin "/overlay" "dev-python") "foo")).isdir q = true) ∧
      make_overlay_dir "dev-python" "foo" "/overlay"
          (makedirs ⟨fun _ => false, fun _ => false⟩
            (pjoin (pjoin "/overlay" "dev-python") "foo")) =
        .ok (pjoin (pjoin "/overlay" "dev-python") "foo")
          (makedirs ⟨fun _ => false, fun _ => false⟩
            (pjoin (pjoin "/overlay" "dev-python") "foo")) []) :=
  ⟨rfl, rfl,
   (make_overlay_dir_spec "dev-python" "foo" "/overlay"
     ⟨fun _ => false, fun _ => false⟩).2.1 rfl rfl⟩

/-! ### List helper lemmas for the walk -/

theorem find_eq_head_filter {α : Type _} (p : α → Bool) (l : List α) :
    l.find? p = (l.filter p).head? := by
  induction l with
  | nil => rfl
  | cons a t ih =>
    rw [List.find?_cons, List.filter_cons]
    cases hpa : p a with
    | true => rfl
    | false => exact ih

theorem findSome_head_flatMap {α β γ : Type _} (l : List α) (f : α → List β)
    (h : β → γ) :
    l.findSome? (fun a => ((f a).head?).map h) = ((l.flatMap f).head?).map h := by
  induction l with
  | nil => rfl
  | cons a t ih =>
    rw [List.findSome?_cons, List.flatMap_cons, List.head?_append]
    cases hfa : f a with
    | nil => simp [ih]
    | cons b bs => simp

/-- C9: `find_egg_info_dir` returns the normalized parent
(`normpath(join(path, dir, ".."))`) of the first directory in the walk's
depth-first pre-order whose name ends in `.egg-info`, and returns nothing
exactly when no directory anywhere under the root has that suffix. -/
theorem find_egg_info_dir_spec (cwd root : String) (t : FTree) :
    find_egg_info_dir cwd root t =
      ((eggMatches (os_walk (abspath cwd root) t)).head?).map
        (fun pd => normpath (pjoin (pjoin pd.1 pd.2) "..")) ∧
    (find_egg_info_dir cwd root t = none ↔
      ∀ e ∈ os_walk (abspath cwd root) t, ∀ d ∈ e.2.1,
        pyEndsWith d eggInfoSuffix = false) := by
  have hmain : find_egg_info_dir cwd root t =
      ((eggMatches (os_walk (abspath cwd root) t)).head?).map
        (fun pd => normpath (pjoin (pjoin pd.1 pd.2) "..")) := by
    simp only [find_egg_info_dir, eggMatches]
    rw [← findSome_head_flatMap]
    congr 1
    funext e
    rw [List.head?_map, Option.map_map, find_eq_head_filter]
    rfl
  refine ⟨hmain, ?_⟩
  rw [hmain, Option.map_eq_none', List.head?_eq_none_iff]
  simp only [eggMatches, List.flatMap_eq_nil_iff, List.map_eq_nil_iff,
    List.filter_eq_nil_iff, Bool.not_eq_true]

end GPyPi
